import Mathlib

/-!
Shallow embedding of the task-scheduler core (`src/app.py`).

Dates are modelled as `Int` day ordinals (the source parses ISO dates with
`pd.to_datetime`; only whole-day differences and comparisons are used).
Hours are modelled as `ℚ` (the source uses decimal numbers; only `+`, `-`,
`min`, comparison and summation occur).  A task field whose column/value is
missing is an `Option` set to `none` (`pd.to_datetime(..., errors="coerce")`
turns unparseable dates into `NaT`, which `pd.notnull` reports as null).
-/

namespace Sched

/-- A task as received by `/api/run-scheduler` (`run_scheduler`).
`name` is the `Task` column, `est` the `Estimated Time` column, `due` the
parsed `Due Date` column. -/
structure Task where
  name : Option String
  est : Option ℚ
  due : Option Int
  importance : Int
  complexity : Int
  deriving DecidableEq, Repr

/-- A free-time window (`Date`, `Available Hours`). -/
structure Window where
  date : Int
  hours : ℚ
  deriving DecidableEq, Repr

/-- One allocation record appended to `scheduled_tasks`. -/
structure Alloc where
  task : String
  date : Int
  hours : ℚ
  deriving DecidableEq, Repr

/-- One record appended to `large_tasks`.  The `Task` field stores the raw
name value, which is null (pandas `NaN`) when the row did not supply it. -/
structure LargeTask where
  id : Nat
  task : Option String
  est : ℚ
  due : Option Int
  deriving DecidableEq, Repr

/-- One entry of the daily summary. -/
structure SummaryEntry where
  date : Int
  totalAvailable : ℚ
  totalScheduled : ℚ
  deriving DecidableEq, Repr

/-- A warning string.  Warnings whose text interpolates only string data are
kept as literal strings; the shortfall warning interpolates a date and two
hour quantities, which are kept structured (string rendering of numbers and
dates is I/O formatting, outside the embedded core). -/
inductive Warning where
  | text (s : String)
  | shortfall (name : String) (due : Int) (needs : ℚ) (scheduled : ℚ)
  deriving DecidableEq, Repr

/-- Result of `run_scheduler`.  In the early-exit branch the source returns a
JSON object without the `totalFreeTime`, `totalTaskTime` and `dailySummary`
keys; absence is modelled by `none`. -/
structure ScheduleResult where
  totalFreeTime : Option ℚ
  totalTaskTime : Option ℚ
  scheduledTasks : List Alloc
  dailySummary : Option (List SummaryEntry)
  warnings : List Warning
  largeTasks : List LargeTask
  deriving DecidableEq, Repr

/-- The three exemption markers of the large-task check (line 106). -/
def exemptTags : List String := ["[MULTI-SESSION]", "[FIXED EVENT]", "[PENDING PLANNING]"]

/-- Python `tag in name`: `tag` occurs as a contiguous substring of `name`. -/
def strContainsSub (s tag : String) : Bool :=
  s.data.tails.any (fun suf => tag.data.isPrefixOf suf)

/-- `any(tag in str(task_name) for tag in [...])` (line 106). -/
def hasExemptTag (name : String) : Bool :=
  exemptTags.any (fun tag => strContainsSub name tag)

/-- The fixed warning text of the large-task check (line 114). -/
def largeWarn (name : String) : Warning :=
  Warning.text ("Task '" ++ name ++ "' exceeds 6 hours and should probably be split unless it's a Work Block.")

/-- Python `str(task_name)` for a possibly-missing name value: a row that
did not supply the `Task` key holds pandas `NaN` there, which `str` (and the
f-string of line 114) renders as `"nan"`. -/
def pyStr (name : Option String) : String :=
  match name with
  | some s => s
  | none => "nan"

/-- A DataFrame built from the request's record list has the
`Estimated Time` column exactly when some record supplies that key (`none`
models an absent key). -/
def hasEstCol (tasks : List Task) : Bool :=
  tasks.any (fun t => t.est.isSome)

/-- A DataFrame built from the request's record list has the `Task` column
exactly when some record supplies that key. -/
def hasNameCol (tasks : List Task) : Bool :=
  tasks.any (fun t => t.name.isSome)

/-- The body of the large-task loop (lines 102-114) for the case where the
`Estimated Time` and `Task` columns both exist, carrying the running row
index `i` (the row label produced by `iterrows`, which is the position for a
freshly built frame).  A row whose duration value is missing is not flagged
(`NaN > 6` is false in Python); a row whose name value is missing IS
flagged when its duration exceeds 6 (line 106 tests markers against
`str(task_name)`, i.e. `"nan"`), and the warning renders the name as
`"nan"`.  Each flagged task contributes its record and its warning, in
input order. -/
def detectLargeAux : Nat → List Task → List (LargeTask × Warning)
  | _, [] => []
  | i, t :: ts =>
    (match t.est with
     | some e =>
       if 6 < e ∧ hasExemptTag (pyStr t.name) = false then
         [(⟨i, t.name, e, t.due⟩, largeWarn (pyStr t.name))]
       else []
     | none => []) ++ detectLargeAux (i + 1) ts

/-- Large-task pass over the whole task list (lines 97-114).  The guard of
line 99, `'Estimated Time' not in task or 'Task' not in task`, tests the
row's Series index — the frame's columns — so it skips either every row or
none: when one of the two columns is absent the pass emits nothing. -/
def detectLarge (tasks : List Task) : List (LargeTask × Warning) :=
  if hasEstCol tasks && hasNameCol tasks then detectLargeAux 0 tasks else []

/-- `days_until_due` of `calc_priority` (line 121): `(Due Date - today).days`
or `9999` for a null/unparseable due date. -/
def daysUntilDue (today : Int) (t : Task) : Int :=
  match t.due with
  | some d => d - today
  | none => 9999

/-- `calc_priority` (lines 120-122): `days_until_due * 1 - Importance * 5`. -/
def calc_priority (today : Int) (t : Task) : Int :=
  daysUntilDue today t * 1 - t.importance * 5

/-- The sort key of line 125: `['Priority Score', 'Complexity']`. -/
def taskKey (today : Int) (t : Task) : Int × Int :=
  (calc_priority today t, t.complexity)

/-- Lexicographic "less or equal" on `(Priority Score, Complexity)`: the
order used by `tasks_df.sort_values(by=['Priority Score', 'Complexity'])`. -/
def taskLE (today : Int) (a b : Task) : Prop :=
  calc_priority today a < calc_priority today b ∨
    (calc_priority today a = calc_priority today b ∧ a.complexity ≤ b.complexity)

instance (today : Int) : DecidableRel (taskLE today) := fun a b => by
  unfold taskLE
  infer_instance

instance (today : Int) : IsTotal Task (taskLE today) := by
  constructor
  intro a b
  unfold taskLE
  omega

instance (today : Int) : IsTrans Task (taskLE today) := by
  constructor
  intro a b c
  unfold taskLE
  omega

/-- The ranking sort of line 125.  A pandas multi-column `sort_values` is a
stable lexicographic sort (`numpy.lexsort`); insertion sort with a total
preorder is the same stable sort. -/
def rankTasks (today : Int) (tasks : List Task) : List Task :=
  List.insertionSort (taskLE today) tasks

/-- The window order `≤` on `Date` used by `sort_values(by='Date')`
(line 91). -/
def winLE (a b : Window) : Prop := a.date ≤ b.date

instance : DecidableRel winLE := fun a b => by
  unfold winLE
  infer_instance

instance : IsTotal Window winLE := by
  constructor
  intro a b
  unfold winLE
  omega

instance : IsTrans Window winLE := by
  constructor
  intro a b c
  unfold winLE
  omega

/-- `working_free_time_df.sort_values(by='Date')` (line 91). -/
def sortWindows (ws : List Window) : List Window :=
  List.insertionSort winLE ws

/-- `pd.notnull(due_date) and window['Date'] > due_date` (line 141). -/
def pastDue (due : Option Int) (date : Int) : Bool :=
  match due with
  | some d => decide (d < date)
  | none => false

/-- The inner window walk (lines 137-153) for one task: returns the
allocations emitted for this task, the final `task_time_remaining`, and the
mutated window list.  The two `break` statements return the untouched tail
of the window list. -/
def walkWindows (due : Option Int) (name : String) :
    ℚ → List Window → List Alloc × ℚ × List Window
  | remaining, [] => ([], remaining, [])
  | remaining, w :: ws =>
    if remaining ≤ 0 then ([], remaining, w :: ws)
    else if pastDue due w.date then ([], remaining, w :: ws)
    else if 0 < w.hours then
      let a := min remaining w.hours
      let rest := walkWindows due name (remaining - a) ws
      (⟨name, w.date, a⟩ :: rest.1, rest.2.1, { w with hours := w.hours - a } :: rest.2.2)
    else
      let rest := walkWindows due name remaining ws
      (rest.1, rest.2.1, w :: rest.2.2)

/-- One iteration of the allocation loop (lines 128-160): skip tasks whose
duration or name is missing, walk the windows, then emit the shortfall
warning when the task has a due date and `task_time_remaining > 0`
(lines 156-160).  The second reported quantity is
`Estimated Time - task_time_remaining`.  The skip of line 130 is the same
column-presence test as line 99; this model skips a row whenever its
duration or name value is absent, which covers the column-absent reading
(in the source a row with a missing value in a present column is instead
walked with a `NaN` duration or name). -/
def processTask (ws : List Window) (t : Task) :
    List Alloc × List Warning × List Window :=
  match t.est, t.name with
  | some e, some n =>
    let r := walkWindows t.due n e ws
    let warns : List Warning :=
      match t.due with
      | some d => if 0 < r.2.1 then [Warning.shortfall n d e (e - r.2.1)] else []
      | none => []
    (r.1, warns, r.2.2)
  | _, _ => ([], [], ws)

/-- The full allocation loop: windows are shared mutable state threaded from
task to task; allocations are kept grouped per task, warnings in emission
order. -/
def allocateAll : List Task → List Window →
    List (Task × List Alloc) × List Warning × List Window
  | [], ws => ([], [], ws)
  | t :: ts, ws =>
    let p := processTask ws t
    let rest := allocateAll ts p.2.2
    ((t, p.1) :: rest.1, p.2.1 ++ rest.2.1, rest.2.2)

/-- Sum of `Available Hours` over the windows whose `Date` is `d`. -/
def sumHoursOn (d : Int) : List Window → ℚ
  | [] => 0
  | w :: ws => (if w.date = d then w.hours else 0) + sumHoursOn d ws

/-- Sum of `Allocated Hours` over the allocations whose `Date` is `d`. -/
def allocSumOn (d : Int) : List Alloc → ℚ
  | [] => 0
  | a :: as => (if a.date = d then a.hours else 0) + allocSumOn d as

/-- The sorted distinct dates of the window list (`groupby('Date')` sorts by
the key). -/
def summaryDates (ws : List Window) : List Int :=
  (List.insertionSort (fun a b : Int => a ≤ b) (ws.map Window.date)).dedup

/-- Daily summary (lines 162-180): one entry per distinct date of the
mutated window list, with the remaining available hours summed per date and
every allocation's hours added to the (unique) entry of its date. -/
def dailySummary (ws : List Window) (as : List Alloc) : List SummaryEntry :=
  (summaryDates ws).map (fun d => ⟨d, sumHoursOn d ws, allocSumOn d as⟩)

/-- Flatten the per-task allocation groups into the single `scheduled_tasks`
list, in emission order. -/
def roundAllocs (rs : List (Task × List Alloc)) : List Alloc :=
  rs.foldr (fun p acc => p.2 ++ acc) []

/-- The fixed early-exit warning (line 85). -/
def noInputWarn : Warning :=
  Warning.text "No tasks or free time available for scheduling."

/-- The early-exit result (lines 82-87). -/
def emptyResult : ScheduleResult :=
  { totalFreeTime := none
    totalTaskTime := none
    scheduledTasks := []
    dailySummary := none
    warnings := [noInputWarn]
    largeTasks := [] }

/-- `run_scheduler` (lines 64-190), as a pure function of `today`, the task
list and the free-time list. -/
def run_scheduler (today : Int) (tasks : List Task) (freeTime : List Window) :
    ScheduleResult :=
  if tasks = [] ∨ freeTime = [] then emptyResult
  else
    let working := sortWindows freeTime
    let totalFree := (working.map Window.hours).sum
    let totalTask := (tasks.map (fun t => t.est.getD 0)).sum
    let larges := detectLarge tasks
    let rounds := allocateAll (rankTasks today tasks) working
    let allocs := roundAllocs rounds.1
    { totalFreeTime := some totalFree
      totalTaskTime := some totalTask
      scheduledTasks := allocs
      dailySummary := some (dailySummary rounds.2.2 allocs)
      warnings := larges.map Prod.snd ++ rounds.2.1
      largeTasks := larges.map Prod.fst }

/-- Concrete example: a 3-hour task due on day 2 (spec §8's first example,
with `today = 0`). -/
def exTask : Task := ⟨some "A", some 3, some 2, 1, 1⟩

/-- Concrete example: a 5-hour window on day 1. -/
def exWindow : Window := ⟨1, 5⟩

/-- Concrete example: an 8-hour task with no due date and no exemption tag. -/
def exBigTask : Task := ⟨some "Big", some 8, none, 0, 0⟩

/-- Concrete example: a 5-hour task whose due date (day -1) precedes every
window. -/
def exLateTask : Task := ⟨some "L", some 5, some (-1), 0, 0⟩

/-- Concrete example: a 4-hour window on day 1. -/
def exLateWindow : Window := ⟨1, 4⟩

end Sched

namespace Restructure

/-- A task row as handled by `/api/breakdown-task` (`breakdown_task`).  Here
tasks come from the CSV with the six default columns always present; the
`Due Date` column is kept as its raw string (never parsed on this path) and
may be empty/null.  The three lazily added metadata columns are modelled as
always-present optional fields: a column that has not been added yet is one
that is `none` on every row. -/
structure RTask where
  project : String
  name : String
  est : ℚ
  due : Option String
  importance : Int
  complexity : Int
  focusSessions : Option Int
  sessionLength : Option ℚ
  eventType : Option String
  deriving DecidableEq, Repr

/-- One `{name, hours}` subtask of the `breakdown` approach. -/
structure Subtask where
  name : String
  hours : ℚ
  deriving DecidableEq, Repr

/-- The request `params` map: each key that `breakdown_task` reads with
`params.get`, as an optional value (`subtasks` defaults to `[]` in the
source, so the empty list plays the role of the missing key). -/
structure BParams where
  taskName : Option String
  date : Option String
  hours : Option ℚ
  subtasks : List Subtask
  sessionLength : Option ℚ
  numSessions : Option Int
  updateName : Option Bool
  newName : Option String
  explorationHours : Option ℚ
  deriving DecidableEq, Repr

/-- A `params` map with no keys set. -/
def BParams.empty : BParams :=
  { taskName := none, date := none, hours := none, subtasks := []
    sessionLength := none, numSessions := none, updateName := none
    newName := none, explorationHours := none }

/-- `breakdown_task` (lines 194-322) as a pure function from the loaded task
list to either an error message (the `"status": "error"` responses) or the
updated task list that the source then persists with `save_data`.  `taskId`
is modelled as the nonnegative position: the source converts the wire value
with `int(...)` (line 196) and validates only the upper bound
`task_id >= len(tasks_df)` (line 204, embedded separately as
`task_id_out_of_range_check`), so this function covers the behaviour on the
nonnegative ids only — a negative wire id is not rejected by the source but
is resolved from the end by `iloc` and then mutated through the absent row
label, which this list model does not represent. -/
def breakdown_task (tasks : List RTask) (taskId : Nat) (approach : String)
    (params : BParams) : Except String (List RTask) :=
  if h : tasks.length ≤ taskId then Except.error "Task not found"
  else
    let task := tasks.get ⟨taskId, by omega⟩
    if approach = "planning" then
      let pname := params.taskName.getD ("Plan breakdown of: " ++ task.name)
      let ptask : RTask :=
        { project := task.project
          name := pname
          est := params.hours.getD 1
          due := params.date
          importance := 4
          complexity := 2
          focusSessions := none
          sessionLength := none
          eventType := none }
      Except.ok ((tasks.set taskId { task with name := task.name ++ " [PENDING PLANNING]" }) ++ [ptask])
    else if approach = "breakdown" then
      if params.subtasks = [] then Except.error "No subtasks provided"
      else
        Except.ok (tasks.eraseIdx taskId ++
          params.subtasks.map (fun s => { task with name := s.name, est := s.hours }))
    else if approach = "focus" then
      let t1 := if params.updateName.getD true then
          { task with name := params.newName.getD (task.name ++ " [MULTI-SESSION]") }
        else task
      Except.ok (tasks.set taskId
        { t1 with focusSessions := some (params.numSessions.getD 0),
                  sessionLength := some (params.sessionLength.getD 2) })
    else if approach = "iterative" then
      let eh := params.explorationHours.getD 2
      let exploration : RTask :=
        { task with project := "Iterative: " ++ task.name
                    name := "Initial exploration: " ++ task.name
                    est := eh }
      let remainingW : RTask :=
        { task with project := "Iterative: " ++ task.name
                    name := task.name ++ " [REMAINING WORK]"
                    est := task.est - eh }
      Except.ok (tasks.eraseIdx taskId ++ [exploration, remainingW])
    else if approach = "fixed" then
      let t1 := if params.updateName.getD true then
          { task with name := params.newName.getD (task.name ++ " [FIXED EVENT]") }
        else task
      Except.ok (tasks.set taskId { t1 with eventType := some "Fixed Duration" })
    else Except.error "Invalid approach"

/-- The task-existence guard of line 204, `task_id >= len(tasks_df)`, over
the signed integer id produced by `int(data.get('taskId'))` (line 196): the
endpoint answers 404 "Task not found" exactly when this is true.  It is the
only validation applied to the id. -/
def task_id_out_of_range_check (numTasks : Nat) (taskId : Int) : Bool :=
  decide ((numTasks : Int) ≤ taskId)

/-- Concrete example: a 10-hour task row. -/
def exRTask : RTask := ⟨"P", "N", 10, some "2026-01-01", 3, 2, none, none, none⟩

end Restructure

namespace Sched

/-- C7: a call with an empty task list or an empty free-time window list
ends early with exactly the single fixed warning, empty `scheduledTasks` and
`largeTasks`, and no `totalFreeTime`, `totalTaskTime` or `dailySummary` in
the result. -/
theorem empty_input_early_exit (today : Int) (tasks : List Task)
    (freeTime : List Window) (h : tasks = [] ∨ freeTime = []) :
    run_scheduler today tasks freeTime =
      { totalFreeTime := none
        totalTaskTime := none
        scheduledTasks := []
        dailySummary := none
        warnings := [Warning.text "No tasks or free time available for scheduling."]
        largeTasks := [] } := by
  rw [run_scheduler, if_pos h]
  rfl

/-- Witness for C7 at the concrete empty input. -/
theorem empty_input_early_exit_witness :
    run_scheduler 0 [] [] =
      { totalFreeTime := none
        totalTaskTime := none
        scheduledTasks := []
        dailySummary := none
        warnings := [Warning.text "No tasks or free time available for scheduling."]
        largeTasks := [] } :=
  empty_input_early_exit 0 [] [] (Or.inl rfl)

end Sched

namespace Restructure

/-- C8 (code bug): the source's only validation of the task id is the
upper-bound guard of line 204.  On a one-task list the negative id `-1` —
outside the valid position range, whose members are all nonnegative — passes
that guard, so the endpoint does not answer the designed "Task not found"
error there; `iloc` instead resolves `-1` to the last row and the call
proceeds to mutate through the absent row label (or raises an unhandled
exception on the drop-based approaches), contradicting the guard's own
stated purpose and the validate-before-mutate design. -/
theorem negative_id_passes_existence_check :
    task_id_out_of_range_check 1 (-1) = false ∧ ¬((0 : Int) ≤ -1) := by
  constructor
  · decide
  · decide

/-- C9: a successful `iterative` restructuring removes the original task and
appends exactly two replacements under the shared project label
`Iterative: <name>`, with estimated hours `explorationHours` and
`originalHours - explorationHours`; the two always sum exactly to the
original estimated hours (the remainder may be negative when
`explorationHours` exceeds them). -/
theorem iterative_split_sum (tasks : List RTask) (taskId : Nat)
    (params : BParams) (h : taskId < tasks.length) :
    ∃ exploration remainingW : RTask,
      breakdown_task tasks taskId "iterative" params =
        Except.ok (tasks.eraseIdx taskId ++ [exploration, remainingW])
      ∧ exploration.project = "Iterative: " ++ (tasks.get ⟨taskId, h⟩).name
      ∧ remainingW.project = "Iterative: " ++ (tasks.get ⟨taskId, h⟩).name
      ∧ exploration.est = params.explorationHours.getD 2
      ∧ remainingW.est = (tasks.get ⟨taskId, h⟩).est - params.explorationHours.getD 2
      ∧ exploration.est + remainingW.est = (tasks.get ⟨taskId, h⟩).est := by
  have hh : breakdown_task tasks taskId "iterative" params =
      Except.ok (tasks.eraseIdx taskId ++
        [{ tasks.get ⟨taskId, h⟩ with
             project := "Iterative: " ++ (tasks.get ⟨taskId, h⟩).name
             name := "Initial exploration: " ++ (tasks.get ⟨taskId, h⟩).name
             est := params.explorationHours.getD 2 },
         { tasks.get ⟨taskId, h⟩ with
             project := "Iterative: " ++ (tasks.get ⟨taskId, h⟩).name
             name := (tasks.get ⟨taskId, h⟩).name ++ " [REMAINING WORK]"
             est := (tasks.get ⟨taskId, h⟩).est - params.explorationHours.getD 2 }]) := by
    rw [breakdown_task, dif_neg (by omega)]
    simp
  exact ⟨_, _, hh, rfl, rfl, rfl, rfl, by ring⟩

/-- Witness for C9 at a concrete one-task list. -/
theorem iterative_split_sum_witness :
    ∃ exploration remainingW : RTask,
      breakdown_task [exRTask] 0 "iterative" BParams.empty =
        Except.ok (([exRTask] : List RTask).eraseIdx 0 ++ [exploration, remainingW])
      ∧ exploration.project = "Iterative: " ++ (([exRTask] : List RTask).get ⟨0, by decide⟩).name
      ∧ remainingW.project = "Iterative: " ++ (([exRTask] : List RTask).get ⟨0, by decide⟩).name
      ∧ exploration.est = BParams.empty.explorationHours.getD 2
      ∧ remainingW.est = (([exRTask] : List RTask).get ⟨0, by decide⟩).est
          - BParams.empty.explorationHours.getD 2
      ∧ exploration.est + remainingW.est = (([exRTask] : List RTask).get ⟨0, by decide⟩).est :=
  iterative_split_sum [exRTask] 0 BParams.empty (by decide)

end Restructure

namespace Restructure

/-- C10: a successful `focus` or `fixed` restructuring leaves every
non-target task entirely unchanged (so metadata fields that were null stay
null for them), and changes the target only in its name (only when the
`updateName` parameter is set, defaulting to true) and in the newly attached
metadata fields (`Focus Sessions` and `Session Length` for `focus`,
`Event Type` for `fixed`); every other field of the target is preserved by
the record update. -/
theorem focus_fixed_frame (tasks : List RTask) (taskId : Nat)
    (params : BParams) (h : taskId < tasks.length) :
    (∃ l, breakdown_task tasks taskId "focus" params = Except.ok l
      ∧ (∀ j, j ≠ taskId → l[j]? = tasks[j]?)
      ∧ l[taskId]? = some
          { tasks.get ⟨taskId, h⟩ with
            name := if params.updateName.getD true
              then params.newName.getD ((tasks.get ⟨taskId, h⟩).name ++ " [MULTI-SESSION]")
              else (tasks.get ⟨taskId, h⟩).name
            focusSessions := some (params.numSessions.getD 0)
            sessionLength := some (params.sessionLength.getD 2) })
    ∧ (∃ l, breakdown_task tasks taskId "fixed" params = Except.ok l
      ∧ (∀ j, j ≠ taskId → l[j]? = tasks[j]?)
      ∧ l[taskId]? = some
          { tasks.get ⟨taskId, h⟩ with
            name := if params.updateName.getD true
              then params.newName.getD ((tasks.get ⟨taskId, h⟩).name ++ " [FIXED EVENT]")
              else (tasks.get ⟨taskId, h⟩).name
            eventType := some "Fixed Duration" }) := by
  constructor
  · refine ⟨tasks.set taskId
      { (if params.updateName.getD true
          then { tasks.get ⟨taskId, h⟩ with
                 name := params.newName.getD
                   ((tasks.get ⟨taskId, h⟩).name ++ " [MULTI-SESSION]") }
          else tasks.get ⟨taskId, h⟩) with
        focusSessions := some (params.numSessions.getD 0)
        sessionLength := some (params.sessionLength.getD 2) }, ?_, ?_, ?_⟩
    · rw [breakdown_task, dif_neg (by omega)]
      simp
    · intro j hj
      exact List.getElem?_set_ne (fun hh => hj hh.symm)
    · rw [List.getElem?_set_self h]
      by_cases hu : params.updateName.getD true <;> simp [hu]
  · refine ⟨tasks.set taskId
      { (if params.updateName.getD true
          then { tasks.get ⟨taskId, h⟩ with
                 name := params.newName.getD
                   ((tasks.get ⟨taskId, h⟩).name ++ " [FIXED EVENT]") }
          else tasks.get ⟨taskId, h⟩) with
        eventType := some "Fixed Duration" }, ?_, ?_, ?_⟩
    · rw [breakdown_task, dif_neg (by omega)]
      simp
    · intro j hj
      exact List.getElem?_set_ne (fun hh => hj hh.symm)
    · rw [List.getElem?_set_self h]
      by_cases hu : params.updateName.getD true <;> simp [hu]

/-- Witness for C10 at a concrete one-task list. -/
theorem focus_fixed_frame_witness :
    (∃ l, breakdown_task [exRTask] 0 "focus" BParams.empty = Except.ok l
      ∧ (∀ j, j ≠ 0 → l[j]? = ([exRTask] : List RTask)[j]?)
      ∧ l[0]? = some
          { (([exRTask] : List RTask).get ⟨0, by decide⟩) with
            name := if BParams.empty.updateName.getD true
              then BParams.empty.newName.getD
                ((([exRTask] : List RTask).get ⟨0, by decide⟩).name ++ " [MULTI-SESSION]")
              else (([exRTask] : List RTask).get ⟨0, by decide⟩).name
            focusSessions := some (BParams.empty.numSessions.getD 0)
            sessionLength := some (BParams.empty.sessionLength.getD 2) })
    ∧ (∃ l, breakdown_task [exRTask] 0 "fixed" BParams.empty = Except.ok l
      ∧ (∀ j, j ≠ 0 → l[j]? = ([exRTask] : List RTask)[j]?)
      ∧ l[0]? = some
          { (([exRTask] : List RTask).get ⟨0, by decide⟩) with
            name := if BParams.empty.updateName.getD true
              then BParams.empty.newName.getD
                ((([exRTask] : List RTask).get ⟨0, by decide⟩).name ++ " [FIXED EVENT]")
              else (([exRTask] : List RTask).get ⟨0, by decide⟩).name
            eventType := some "Fixed Duration" }) :=
  focus_fixed_frame [exRTask] 0 BParams.empty (by decide)

end Restructure

namespace Sched

/-- Every allocation emitted by the window walk of a task with a due date
lies on or before that due date: the walk breaks before allocating from any
window strictly past the due date. -/
theorem walkWindows_dates_le (n : String) (d : Int) :
    ∀ (r : ℚ) (ws : List Window), ∀ a ∈ (walkWindows (some d) n r ws).1, a.date ≤ d := by
  intro r ws
  induction ws generalizing r with
  | nil => simp [walkWindows]
  | cons w ws ih =>
    intro a ha
    rw [walkWindows] at ha
    by_cases h1 : r ≤ 0
    · simp [h1] at ha
    · rw [if_neg h1] at ha
      by_cases h2 : pastDue (some d) w.date
      · simp [h2] at ha
      · rw [if_neg h2] at ha
        have hwd : w.date ≤ d := by
          unfold pastDue at h2
          simp at h2
          omega
        by_cases h3 : 0 < w.hours
        · rw [if_pos h3] at ha
          simp only [List.mem_cons] at ha
          rcases ha with rfl | ha
          · exact hwd
          · exact ih _ a ha
        · rw [if_neg h3] at ha
          exact ih _ a ha

/-- Per-task due-date bound lifted through the whole allocation loop. -/
theorem allocateAll_dates_le : ∀ (ts : List Task) (ws : List Window),
    ∀ p ∈ (allocateAll ts ws).1, ∀ d : Int, p.1.due = some d → ∀ a ∈ p.2, a.date ≤ d := by
  intro ts
  induction ts with
  | nil => simp [allocateAll]
  | cons t ts ih =>
    intro ws p hp d hd a ha
    rw [allocateAll] at hp
    simp only [List.mem_cons] at hp
    rcases hp with rfl | hp
    · simp only at hd ha
      cases he : t.est with
      | none => simp [processTask, he] at ha
      | some e =>
        cases hn : t.name with
        | none => simp [processTask, he, hn] at ha
        | some n =>
          simp only [processTask, he, hn] at ha
          rw [hd] at ha
          exact walkWindows_dates_le n d e ws a ha
    · exact ih _ p hp d hd a ha

/-- `a ∈ roundAllocs rs` iff `a` was allocated in one of the rounds. -/
theorem mem_roundAllocs (a : Alloc) : ∀ rs : List (Task × List Alloc),
    a ∈ roundAllocs rs ↔ ∃ p ∈ rs, a ∈ p.2 := by
  intro rs
  induction rs with
  | nil => simp [roundAllocs]
  | cons p rs ih =>
    simp only [roundAllocs, List.foldr_cons, List.mem_append, List.mem_cons]
    rw [roundAllocs] at ih
    constructor
    · rintro (h | h)
      · exact ⟨p, Or.inl rfl, h⟩
      · obtain ⟨q, hq, haq⟩ := ih.mp h
        exact ⟨q, Or.inr hq, haq⟩
    · rintro ⟨q, hq | hq, haq⟩
      · subst hq
        exact Or.inl haq
      · exact Or.inr (ih.mpr ⟨q, hq, haq⟩)

/-- C1: in any scheduling run, every allocation emitted during the round of
a task with a (parseable) due date has its date at or before that due date,
and every allocation of `run_scheduler`'s `scheduledTasks` comes from some
round of the allocation loop (tasks without a due date are subject to no
date constraint). -/
theorem alloc_dates_respect_due (today : Int) (tasks : List Task) (freeTime : List Window) :
    (∀ p ∈ (allocateAll (rankTasks today tasks) (sortWindows freeTime)).1,
      ∀ d : Int, p.1.due = some d → ∀ a ∈ p.2, a.date ≤ d)
    ∧ (∀ a ∈ (run_scheduler today tasks freeTime).scheduledTasks,
      ∃ p ∈ (allocateAll (rankTasks today tasks) (sortWindows freeTime)).1, a ∈ p.2) := by
  constructor
  · exact allocateAll_dates_le _ _
  · intro a ha
    by_cases hempty : tasks = [] ∨ freeTime = []
    · rw [empty_input_early_exit today tasks freeTime hempty] at ha
      simp at ha
    · rw [run_scheduler, if_neg hempty] at ha
      simp only at ha
      exact (mem_roundAllocs a _).mp ha

/-- Witness for C1: for the concrete one-task run, its single allocation is
dated within the due date. -/
theorem alloc_dates_respect_due_witness :
    (Alloc.mk "A" 1 3).date ≤ 2 :=
  (alloc_dates_respect_due 0 [exTask] [exWindow]).1 (exTask, [Alloc.mk "A" 1 3])
    (by decide) 2 rfl (Alloc.mk "A" 1 3) (by decide)

end Sched

namespace Sched

/-- `allocSumOn` distributes over append. -/
theorem allocSumOn_append (d : Int) : ∀ xs ys : List Alloc,
    allocSumOn d (xs ++ ys) = allocSumOn d xs + allocSumOn d ys := by
  intro xs ys
  induction xs with
  | nil => simp [allocSumOn]
  | cons x xs ih =>
    simp only [List.cons_append, allocSumOn, List.append_eq, ih]
    ring

/-- Per-date conservation of the window walk: hours allocated on a date plus
hours left on that date equal the hours that were there. -/
theorem walkWindows_conserve (due : Option Int) (n : String) (d : Int) :
    ∀ (r : ℚ) (ws : List Window),
      allocSumOn d (walkWindows due n r ws).1
        + sumHoursOn d (walkWindows due n r ws).2.2 = sumHoursOn d ws := by
  intro r ws
  induction ws generalizing r with
  | nil => simp [walkWindows, allocSumOn, sumHoursOn]
  | cons w ws ih =>
    rw [walkWindows]
    by_cases h1 : r ≤ 0
    · simp [h1, allocSumOn]
    · rw [if_neg h1]
      by_cases h2 : pastDue due w.date
      · simp [h2, allocSumOn]
      · rw [if_neg h2]
        by_cases h3 : 0 < w.hours
        · rw [if_pos h3]
          simp only [allocSumOn, sumHoursOn]
          have hih := ih (r - min r w.hours)
          by_cases h4 : w.date = d <;> simp only [h4, if_true, if_false] <;> linarith
        · rw [if_neg h3]
          simp only [allocSumOn, sumHoursOn]
          have hih := ih r
          linarith

/-- The window walk never drives a window's available hours below zero: it
only takes `min(remaining, availableHours)` from windows with positive
availability. -/
theorem walkWindows_nonneg (due : Option Int) (n : String) :
    ∀ (r : ℚ) (ws : List Window), (∀ w ∈ ws, 0 ≤ w.hours) →
      ∀ w ∈ (walkWindows due n r ws).2.2, 0 ≤ w.hours := by
  intro r ws
  induction ws generalizing r with
  | nil => simp [walkWindows]
  | cons w ws ih =>
    intro hpos v hv
    rw [walkWindows] at hv
    by_cases h1 : r ≤ 0
    · rw [if_pos h1] at hv
      exact hpos v hv
    · rw [if_neg h1] at hv
      by_cases h2 : pastDue due w.date
      · rw [if_pos h2] at hv
        exact hpos v hv
      · rw [if_neg h2] at hv
        have hws : ∀ u ∈ ws, 0 ≤ u.hours := fun u hu => hpos u (List.mem_cons_of_mem w hu)
        by_cases h3 : 0 < w.hours
        · rw [if_pos h3] at hv
          simp only [List.mem_cons] at hv
          rcases hv with rfl | hv
          · simp only
            have := min_le_right r w.hours
            linarith
          · exact ih _ hws v hv
        · rw [if_neg h3] at hv
          simp only [List.mem_cons] at hv
          rcases hv with rfl | hv
          · exact hpos v (List.mem_cons_self v ws)
          · exact ih _ hws v hv

/-- Per-date conservation of one task round. -/
theorem processTask_conserve (ws : List Window) (t : Task) (d : Int) :
    allocSumOn d (processTask ws t).1 + sumHoursOn d (processTask ws t).2.2
      = sumHoursOn d ws := by
  cases he : t.est with
  | none => simp [processTask, he, allocSumOn]
  | some e =>
    cases hn : t.name with
    | none => simp [processTask, he, hn, allocSumOn]
    | some n =>
      simp only [processTask, he, hn]
      exact walkWindows_conserve t.due n d e ws

/-- One task round keeps all window hours nonnegative. -/
theorem processTask_nonneg (ws : List Window) (t : Task)
    (hpos : ∀ w ∈ ws, 0 ≤ w.hours) :
    ∀ w ∈ (processTask ws t).2.2, 0 ≤ w.hours := by
  cases he : t.est with
  | none =>
    simp only [processTask, he]
    exact hpos
  | some e =>
    cases hn : t.name with
    | none =>
      simp only [processTask, he, hn]
      exact hpos
    | some n =>
      simp only [processTask, he, hn]
      exact walkWindows_nonneg t.due n e ws hpos

/-- Unfolding equation of `allocateAll` on a cons cell. -/
theorem allocateAll_cons (t : Task) (ts : List Task) (ws : List Window) :
    allocateAll (t :: ts) ws =
      ((t, (processTask ws t).1) :: (allocateAll ts (processTask ws t).2.2).1,
       (processTask ws t).2.1 ++ (allocateAll ts (processTask ws t).2.2).2.1,
       (allocateAll ts (processTask ws t).2.2).2.2) := rfl

/-- Unfolding equation of `roundAllocs` on a cons cell. -/
theorem roundAllocs_cons (p : Task × List Alloc) (rs : List (Task × List Alloc)) :
    roundAllocs (p :: rs) = p.2 ++ roundAllocs rs := rfl

/-- Per-date conservation of the whole allocation loop. -/
theorem allocateAll_conserve (d : Int) : ∀ (ts : List Task) (ws : List Window),
    allocSumOn d (roundAllocs (allocateAll ts ws).1)
      + sumHoursOn d (allocateAll ts ws).2.2 = sumHoursOn d ws := by
  intro ts
  induction ts with
  | nil => simp [allocateAll, roundAllocs, allocSumOn]
  | cons t ts ih =>
    intro ws
    rw [allocateAll_cons]
    simp only [roundAllocs_cons]
    rw [allocSumOn_append]
    have h1 := processTask_conserve ws t d
    have h2 := ih (processTask ws t).2.2
    linarith

/-- The whole allocation loop keeps all window hours nonnegative. -/
theorem allocateAll_nonneg : ∀ (ts : List Task) (ws : List Window),
    (∀ w ∈ ws, 0 ≤ w.hours) → ∀ w ∈ (allocateAll ts ws).2.2, 0 ≤ w.hours := by
  intro ts
  induction ts with
  | nil =>
    intro ws hpos
    simpa [allocateAll] using hpos
  | cons t ts ih =>
    intro ws hpos
    rw [allocateAll]
    exact ih _ (processTask_nonneg ws t hpos)

/-- A per-date sum of nonnegative window hours is nonnegative. -/
theorem sumHoursOn_nonneg (d : Int) : ∀ ws : List Window,
    (∀ w ∈ ws, 0 ≤ w.hours) → 0 ≤ sumHoursOn d ws := by
  intro ws
  induction ws with
  | nil => simp [sumHoursOn]
  | cons w ws ih =>
    intro hpos
    have h1 := hpos w (List.mem_cons_self w ws)
    have h2 := ih (fun u hu => hpos u (List.mem_cons_of_mem w hu))
    simp only [sumHoursOn]
    by_cases h4 : w.date = d <;> simp only [h4, if_true, if_false] <;> linarith

/-- `sumHoursOn` as a mapped sum. -/
theorem sumHoursOn_eq_sum_map (d : Int) : ∀ ws : List Window,
    sumHoursOn d ws = (ws.map (fun w => if w.date = d then w.hours else 0)).sum := by
  intro ws
  induction ws with
  | nil => simp [sumHoursOn]
  | cons w ws ih => simp [sumHoursOn, ih]

/-- `sumHoursOn` is invariant under permutation (sorting the windows does
not change any date's capacity). -/
theorem sumHoursOn_perm (d : Int) {ws₁ ws₂ : List Window} (h : ws₁.Perm ws₂) :
    sumHoursOn d ws₁ = sumHoursOn d ws₂ := by
  rw [sumHoursOn_eq_sum_map, sumHoursOn_eq_sum_map]
  exact (h.map _).sum_eq

end Sched

namespace Sched

/-- Unfolding equation of `run_scheduler` outside the early-exit branch. -/
theorem run_scheduler_eq (today : Int) (tasks : List Task) (freeTime : List Window)
    (h : ¬(tasks = [] ∨ freeTime = [])) :
    run_scheduler today tasks freeTime =
      { totalFreeTime := some (((sortWindows freeTime).map Window.hours).sum)
        totalTaskTime := some ((tasks.map (fun t => t.est.getD 0)).sum)
        scheduledTasks := roundAllocs (allocateAll (rankTasks today tasks) (sortWindows freeTime)).1
        dailySummary := some (dailySummary
          (allocateAll (rankTasks today tasks) (sortWindows freeTime)).2.2
          (roundAllocs (allocateAll (rankTasks today tasks) (sortWindows freeTime)).1))
        warnings := (detectLarge tasks).map Prod.snd
          ++ (allocateAll (rankTasks today tasks) (sortWindows freeTime)).2.1
        largeTasks := (detectLarge tasks).map Prod.fst } := by
  rw [run_scheduler, if_neg h]

/-- C2: for every date, the hours allocated by a scheduling run on that date
never exceed the original available hours of that date's windows, and the
allocation loop never drives any window's available hours below zero at any
point (after any prefix of the task rounds), given the data-model invariant
that input `availableHours` are nonnegative. -/
theorem capacity_not_oversold (today : Int) (tasks : List Task) (freeTime : List Window)
    (hpos : ∀ w ∈ freeTime, 0 ≤ w.hours) :
    (∀ d : Int, allocSumOn d (run_scheduler today tasks freeTime).scheduledTasks
      ≤ sumHoursOn d freeTime)
    ∧ (∀ k : Nat,
      ∀ w ∈ (allocateAll ((rankTasks today tasks).take k) (sortWindows freeTime)).2.2,
        0 ≤ w.hours) := by
  have hposSorted : ∀ w ∈ sortWindows freeTime, 0 ≤ w.hours := by
    intro w hw
    exact hpos w ((List.perm_insertionSort winLE freeTime).mem_iff.mp hw)
  constructor
  · intro d
    by_cases hempty : tasks = [] ∨ freeTime = []
    · rw [empty_input_early_exit today tasks freeTime hempty]
      have h0 := sumHoursOn_nonneg d freeTime hpos
      simpa [allocSumOn] using h0
    · rw [run_scheduler_eq today tasks freeTime hempty]
      have hcons := allocateAll_conserve d (rankTasks today tasks) (sortWindows freeTime)
      have hfin := sumHoursOn_nonneg d _
        (allocateAll_nonneg (rankTasks today tasks) (sortWindows freeTime) hposSorted)
      have hperm : sumHoursOn d (sortWindows freeTime) = sumHoursOn d freeTime :=
        sumHoursOn_perm d (List.perm_insertionSort winLE freeTime)
      simp only
      linarith
  · intro k
    exact allocateAll_nonneg _ _ hposSorted

/-- Witness for C2 at the concrete one-task run. -/
theorem capacity_not_oversold_witness :
    allocSumOn 1 (run_scheduler 0 [exTask] [exWindow]).scheduledTasks
      ≤ sumHoursOn 1 [exWindow] :=
  (capacity_not_oversold 0 [exTask] [exWindow] (by decide)).1 1

end Sched

namespace Sched

/-- C3: the priority score of every task is
`daysUntilDue - importance * 5`, with `daysUntilDue` the whole-day
difference `dueDate - today` or `9999` for a null due date; and the task
order fed to the allocator (`rankTasks`, the order `run_scheduler` passes to
`allocateAll`) is a permutation of the input sorted ascending by the pair
`(priorityScore, complexity)`, complexity breaking ties. -/
theorem priority_score_and_order (today : Int) (tasks : List Task) :
    (∀ t : Task, calc_priority today t =
      (match t.due with
       | some d => d - today
       | none => 9999) - t.importance * 5)
    ∧ List.Sorted (taskLE today) (rankTasks today tasks)
    ∧ (rankTasks today tasks).Perm tasks := by
  refine ⟨?_, List.sorted_insertionSort (taskLE today) tasks,
    List.perm_insertionSort (taskLE today) tasks⟩
  intro t
  unfold calc_priority daysUntilDue
  cases t.due <;> ring

/-- The filtered subsequence of a given sort key is unchanged by
`orderedInsert`: any element skipped over by the insertion is strictly
smaller in the lexicographic key, hence has a different key. -/
theorem filter_orderedInsert_key (today : Int) (k : Int × Int) (a : Task) :
    ∀ l : List Task,
      (List.orderedInsert (taskLE today) a l).filter
          (fun t => decide (taskKey today t = k))
        = if taskKey today a = k
            then a :: l.filter (fun t => decide (taskKey today t = k))
            else l.filter (fun t => decide (taskKey today t = k)) := by
  intro l
  induction l with
  | nil =>
    by_cases hk : taskKey today a = k <;>
      simp [List.orderedInsert, List.filter, hk]
  | cons y ys ih =>
    by_cases hr : taskLE today a y
    · rw [List.orderedInsert_of_le _ _ hr]
      by_cases hk : taskKey today a = k <;>
        simp [List.filter, hk]
    · have hkey : taskKey today a ≠ taskKey today y := by
        intro he
        apply hr
        unfold taskKey at he
        unfold taskLE
        rw [Prod.mk.injEq] at he
        omega
      rw [show List.orderedInsert (taskLE today) a (y :: ys)
          = y :: List.orderedInsert (taskLE today) a ys from if_neg hr]
      by_cases hk : taskKey today a = k
      · have hyk : ¬(taskKey today y = k) := fun hyk => hkey (hk.trans hyk.symm)
        simp only [List.filter, hyk, decide_eq_true_eq, decide_eq_false hyk, ih, hk, if_pos hk]
        simp [hyk]
      · by_cases hyk : taskKey today y = k <;>
          simp [List.filter, hyk, ih, hk]

/-- C4: the ranking sort is stable on exact ties of both keys: for any key
value `k`, the subsequence of tasks whose `(priorityScore, complexity)` pair
equals `k` appears in `rankTasks` exactly in its original input order, so
two tasks tying on both keys are processed in input order. -/
theorem rank_stable_on_ties (today : Int) (tasks : List Task) (k : Int × Int) :
    (rankTasks today tasks).filter (fun t => decide (taskKey today t = k))
      = tasks.filter (fun t => decide (taskKey today t = k)) := by
  induction tasks with
  | nil => rfl
  | cons t ts ih =>
    unfold rankTasks at ih ⊢
    rw [show List.insertionSort (taskLE today) (t :: ts)
        = List.orderedInsert (taskLE today) t (List.insertionSort (taskLE today) ts) from rfl]
    rw [filter_orderedInsert_key today k t (List.insertionSort (taskLE today) ts), ih]
    by_cases hk : taskKey today t = k <;> simp [List.filter, hk]

end Sched

namespace Sched

/-- Membership characterisation of the large-task loop body: a (record,
warning) pair is emitted starting from row index `j` exactly when some
position `p` holds a task whose duration value is present and over 6 hours
and whose rendered name is free of exemption markers; the record carries row
id `j + p`, the raw (possibly null) name, hours and due date, and the fixed
warning text over the rendered name. -/
theorem detectLargeAux_mem : ∀ (ts : List Task) (j : Nat) (lt : LargeTask) (w : Warning),
    (lt, w) ∈ detectLargeAux j ts ↔
      ∃ p : Nat, ∃ hp : p < ts.length, ∃ e : ℚ,
        ts[p].est = some e ∧ 6 < e ∧ hasExemptTag (pyStr ts[p].name) = false
          ∧ lt = ⟨j + p, ts[p].name, e, ts[p].due⟩ ∧ w = largeWarn (pyStr ts[p].name) := by
  intro ts
  induction ts with
  | nil =>
    intro j lt w
    simp [detectLargeAux]
  | cons t ts ih =>
    intro j lt w
    rw [detectLargeAux, List.mem_append]
    constructor
    · rintro (h | h)
      · cases he : t.est with
        | none => simp [he] at h
        | some e0 =>
          simp only [he] at h
          by_cases hc : 6 < e0 ∧ hasExemptTag (pyStr t.name) = false
          · rw [if_pos hc] at h
            simp only [List.mem_singleton, Prod.mk.injEq] at h
            refine ⟨0, by simp, e0, ?_, hc.1, ?_, ?_, ?_⟩
            · simpa using he
            · simpa using hc.2
            · rw [h.1]
              simp
            · simpa using h.2
          · rw [if_neg hc] at h
            simp at h
      · obtain ⟨p, hp, e, h1, h3, h4, h5, h6⟩ := (ih (j + 1) lt w).mp h
        refine ⟨p + 1, by simpa using Nat.succ_lt_succ hp, e, ?_, h3, ?_, ?_, ?_⟩
        · simpa using h1
        · simpa using h4
        · rw [h5]
          simp only [List.getElem_cons_succ]
          congr 1
          omega
        · simpa using h6
    · rintro ⟨p, hp, e, h1, h3, h4, h5, h6⟩
      cases p with
      | zero =>
        left
        simp only [List.getElem_cons_zero] at h1 h4 h5 h6
        subst h5 h6
        simp only [h1, if_pos (And.intro h3 h4), List.mem_singleton, Prod.mk.injEq]
        constructor
        · congr 1
        · trivial
      | succ p =>
        right
        apply (ih (j + 1) lt w).mpr
        refine ⟨p, by simp only [List.length_cons] at hp; omega, e, ?_, h3, ?_, ?_, ?_⟩
        · simpa using h1
        · simpa using h4
        · rw [h5]
          simp only [List.getElem_cons_succ]
          congr 1
          omega
        · simpa using h6

/-- C5 (amended): when either the duration or the name column is absent
from the task list, the large-task pass emits nothing; when both columns
exist, the task at position `i` emits the record
`{id := i, raw-name-or-null, hours, due-or-null}` together with the fixed
exceeds-6-hours warning over `str(name)` if and only if its duration value
is present and exceeds 6 hours and `str(name)` — which is `"nan"` for a
missing name — contains none of the exemption markers.  In particular a
task with a missing duration value produces neither record nor warning, but
a task missing only its name is flagged rather than skipped. -/
theorem large_task_iff (tasks : List Task) (i : Nat) (hi : i < tasks.length) (e : ℚ) :
    ((hasEstCol tasks = false ∨ hasNameCol tasks = false) → detectLarge tasks = [])
    ∧ (hasEstCol tasks = true → hasNameCol tasks = true →
      ((tasks[i].est = some e ∧ 6 < e ∧ hasExemptTag (pyStr tasks[i].name) = false)
        ↔ (LargeTask.mk i tasks[i].name e tasks[i].due, largeWarn (pyStr tasks[i].name))
            ∈ detectLarge tasks)) := by
  constructor
  · intro h
    rw [detectLarge]
    rcases h with h | h <;> simp [h]
  · intro hc1 hc2
    rw [detectLarge, if_pos (by rw [hc1, hc2]; rfl), detectLargeAux_mem]
    constructor
    · rintro ⟨h1, h3, h4⟩
      refine ⟨i, hi, e, h1, h3, h4, ?_, rfl⟩
      congr 1
      omega
    · rintro ⟨p, hp, e2, h1, h3, h4, h5, h6⟩
      rw [LargeTask.mk.injEq] at h5
      obtain ⟨hip, hname, he2, hdue⟩ := h5
      have hpi : p = i := by omega
      subst hpi
      subst he2
      exact ⟨h1, h3, h4⟩

/-- Witness for C5: the concrete 8-hour untagged named task is flagged. -/
theorem large_task_iff_witness :
    (LargeTask.mk 0 (some "Big") 8 none, largeWarn "Big") ∈ detectLarge [exBigTask] :=
  ((large_task_iff [exBigTask] 0 (by decide) 8).2 rfl rfl).mp
    ⟨rfl, by norm_num, rfl⟩

/-- Counterexample to C5 as stated: a task whose name value is missing is
NOT silently skipped by the source.  With the name column present (a later
task supplies a name), the 8-hour nameless task is flagged: the pass emits
a LargeTask record with a null name and the warning rendering the missing
name as `"nan"` (the source's line 99 skip tests column presence, not the
row's value). -/
theorem large_task_missing_name_flagged :
    (Task.mk none (some 8) none 0 0).name = none
    ∧ (LargeTask.mk 0 none 8 none, largeWarn "nan")
        ∈ detectLarge
            [Task.mk none (some 8) none 0 0, Task.mk (some "x") (some 1) none 0 0] := by
  constructor
  · rfl
  · decide

end Sched

namespace Sched

/-- C6: for a task with a duration and a name, a shortfall warning is in the
task's round exactly when the task has a (parseable) due date and its
remaining hours after the window walk are strictly positive; the warning
carries the task's name, due date, needed hours `e`, and — as the second
reported number — the hours successfully scheduled, `e - remaining`.  A task
whose due date is null is never subject to the check. -/
theorem shortfall_warning_iff (ws : List Window) (t : Task) (e : ℚ) (n : String)
    (he : t.est = some e) (hn : t.name = some n) (nm : String) (d : Int)
    (needs sched : ℚ) :
    Warning.shortfall nm d needs sched ∈ (processTask ws t).2.1 ↔
      (t.due = some d ∧ nm = n ∧ needs = e
        ∧ 0 < (walkWindows t.due n e ws).2.1
        ∧ sched = e - (walkWindows t.due n e ws).2.1) := by
  simp only [processTask, he, hn]
  cases hdue : t.due with
  | none => simp
  | some d0 =>
    by_cases hr : 0 < (walkWindows (some d0) n e ws).2.1
    · simp only [hr, if_true, List.mem_singleton, Warning.shortfall.injEq]
      constructor
      · rintro ⟨h1, h2, h3, h4⟩
        exact ⟨by rw [h2], h1, h3, trivial, h4⟩
      · rintro ⟨hd, h1, h3, _, h4⟩
        injection hd with hd
        exact ⟨h1, hd.symm, h3, h4⟩
    · simp [hr]

/-- Witness for C6: the concrete task due before its only window gets the
shortfall warning reporting 0 scheduled hours out of 5. -/
theorem shortfall_warning_iff_witness :
    Warning.shortfall "L" (-1) 5 0 ∈ (processTask [exLateWindow] exLateTask).2.1 :=
  (shortfall_warning_iff [exLateWindow] exLateTask 5 "L" rfl rfl "L" (-1) 5 0).mpr
    ⟨rfl, rfl, rfl, by decide,
     by norm_num [walkWindows, pastDue, exLateTask, exLateWindow]⟩

end Sched
